import Mathlib

/-!
# Verification of the DataForge file-uploader pipeline

A shallow embedding of `src/FileUploader/file_uploader.py` (the `upload_dataset`
command).  The script is a linear pipeline over three external systems: an HTTP
schema service, a MinIO object store and a RabbitMQ broker.  Each external
system is modelled by an oracle recorded in a `World`; the pipeline itself is a
pure function from the CLI arguments and the world to the printed messages, the
trace of external calls, and the outbound indexing metadata.

Conventions of the embedding:
* JSON records (the entries of `metadata.json`) are association lists of
  string keys and string values, in document order, as produced by Python's
  `json.load` (so keys within one record are distinct).
* `Event.httpGet` records that the GET request was issued (even when the
  connection then fails); every storage and broker event records a call that
  returned without raising.  An operation that raises produces no event and
  sends the run into the corresponding `except` branch.
* Python string operations (`split('/')`, `lower()`, `os.path.join`) are
  re-implemented on character lists with their documented semantics.
-/

/-- A metadata record: one element of the JSON metadata list, as a key/value
association list in document order. -/
abbrev Record := List (String × String)

/-- Python dict lookup `r[k]` (first match; records from JSON have unique keys).
`none` models a `KeyError`. -/
def lookupKey : Record → String → Option String
  | [], _ => none
  | (k', v) :: rest, k => if k' = k then some v else lookupKey rest k

/-- Python dict assignment `r[k] = v`: overwrite in place if the key is
present, otherwise append the new key at the end (insertion order). -/
def dictSet : Record → String → String → Record
  | [], k, v => [(k, v)]
  | (k', v') :: r, k, v => if k' = k then (k, v) :: r else (k', v') :: dictSet r k v

/-- Number of fields of `r` with key `k`. -/
def countKey (r : Record) (k : String) : Nat :=
  r.countP (fun p => p.1 == k)

/-- Keys of a record are pairwise distinct (true of any record obtained from a
parsed JSON object / Python dict). -/
abbrev keysNodup (r : Record) : Prop :=
  (r.map Prod.fst).Nodup

/-- Python `str.lower()` (ASCII case folding, which is what the bucket names in
scope use). -/
def pyLower (s : String) : String :=
  String.mk (s.data.map Char.toLower)

/-- Python `str.split('/')` on a character list: split at every `'/'`, keeping
empty segments, with `[""]` for the empty string. -/
def splitSlashAux : List Char → List (List Char)
  | [] => [[]]
  | c :: cs =>
    if c = '/' then [] :: splitSlashAux cs
    else
      match splitSlashAux cs with
      | [] => [[c]]
      | t :: ts => (c :: t) :: ts

/-- Python `os.path.join(a, b)` for POSIX paths, two components. -/
def pathJoin (a b : String) : String :=
  if b.data.head? = some '/' then b
  else if a = "" then b
  else if a.data.getLast? = some '/' then a ++ b
  else a ++ "/" ++ b

/-- Bucket-name resolution of `upload_dataset` (lines 82–88): if no `--bucket`
flag was given, take the last element of `dir_path.split('/')` when the path
contains a `'/'` (otherwise the whole path) and lower-case it; an explicit
flag is used as is. -/
def deriveBucket (bucket dir_path : String) : String :=
  if bucket = "" then
    pyLower
      (if dir_path.data.contains '/' then
        String.mk ((splitSlashAux dir_path.data).getLastD [])
      else dir_path)
  else bucket

/-- `get_dataset_size` (lines 26–31): the dataset directory tree is modelled as
the list of regular files the recursive `glob('**/*')` walk yields, paired with
their `st_size`; the function sums the sizes. -/
def get_dataset_size (tree : List (String × Nat)) : Nat :=
  (tree.map Prod.snd).sum

/-- `img_format.add t` on a set modelled as a duplicate-free list in insertion
order. -/
def addFmt (fmts : List String) (t : String) : List String :=
  if fmts.contains t then fmts else fmts ++ [t]

/-- Outcome of `requests.get(f'{API}/{dataclass}')`: the connection either
fails or yields a response with an HTTP status code. -/
inductive HttpResult where
  | connError
  | response (status : Nat)
deriving DecidableEq

/-- `Response.raise_for_status` raises exactly for 4xx and 5xx status codes. -/
def raiseForStatus (st : Nat) : Bool :=
  decide (400 ≤ st) && decide (st < 600)

/-- How far the RabbitMQ block gets before an operation raises (`ok` = the
whole block succeeds).  `closeFail` means the message was published and the
success line printed, but `connection.close()` raised. -/
inductive BrokerOutcome where
  | connFail
  | declareFail
  | publishFail
  | closeFail
  | ok
deriving DecidableEq

/-- `dataset_details` (lines 119–125). -/
structure DatasetDetails where
  name : String
  bucket : String
  date : String
  size : Nat
  filetype : List String
deriving DecidableEq

/-- `indexing_metadata`: the outbound message. -/
structure IndexingMetadata where
  files : List Record
  dataset_name : String
  dataset_details : DatasetDetails
deriving DecidableEq

/-- The CLI arguments the embedded pipeline consumes. -/
structure Args where
  dir_path : String
  metadatafile : String
  dataclass : String
  bucket : String
  endpoint : String
  queue : String

/-- The behaviour of the external systems during one run. -/
structure World where
  /-- value of the `API` environment variable -/
  api : String
  /-- `os.path.exists` on the metadata file -/
  metadataExists : Bool
  /-- the parsed JSON metadata document (a list of records) -/
  metadata : List Record
  /-- outcome of the schema GET -/
  http : HttpResult
  /-- whether `jsonschema.validate` of this metadata against the fetched
  schema succeeds -/
  validates : Bool
  /-- `client.bucket_exists` answer; `none` models the call raising -/
  bucketExistsAns : Option Bool
  /-- whether `client.make_bucket` returns without raising -/
  makeBucketOk : Bool
  /-- whether `open(file_path, 'rb')` succeeds for the i-th record -/
  openOk : Nat → Bool
  /-- whether `client.put_object` succeeds for the i-th record -/
  putOk : Nat → Bool
  /-- the regular files under the dataset directory (recursive walk), with
  their byte sizes -/
  tree : List (String × Nat)
  /-- `date.today().strftime('%Y-%m-%d')` -/
  today : String
  /-- behaviour of the RabbitMQ block -/
  broker : BrokerOutcome

/-- The user-visible messages `click.echo` prints, one constructor per call
site. -/
inductive Msg where
  | metadataMissing (path : String)
  | connectFailed
  | cannotRetrieve (dataclass : String)
  | schemaMismatch (path : String)
  | validated (path : String)
  | bucketAlreadyExists (b : String)
  | bucketCreated (b : String)
  | uploadedDataset (dir b : String)
  | uploadError
  | sentMetadata (dir q : String)
  | sendError
deriving DecidableEq

/-- Trace of calls to the external systems.  `httpGet` records the attempt;
all other events record calls that returned without raising.  `removeObject`
exists to state that the program never deletes an object: no branch of the
pipeline emits it. -/
inductive Event where
  | httpGet (url : String)
  | minioInit (endpoint : String)
  | bucketExistsCheck (b : String) (ans : Bool)
  | makeBucket (b : String)
  | putObject (b : String) (key : String)
  | removeObject (b : String) (key : String)
  | queueDeclare (q : String) (durable : Bool)
  | publish (q : String) (body : IndexingMetadata) (deliveryMode : Nat)
  | closeConn
deriving DecidableEq

/-- An event addressed to the object store (client construction included). -/
def storageEvent : Event → Bool
  | Event.minioInit _ => true
  | Event.bucketExistsCheck _ _ => true
  | Event.makeBucket _ => true
  | Event.putObject _ _ => true
  | Event.removeObject _ _ => true
  | _ => false

/-- An event addressed to the message broker. -/
def brokerEvent : Event → Bool
  | Event.queueDeclare _ _ => true
  | Event.publish _ _ _ => true
  | Event.closeConn => true
  | _ => false

/-- Result of one run: printed messages, the trace of external calls, the
indexing metadata if the upload step completed (`finalized`), and the message
body if `basic_publish` was reached and returned (`published`). -/
structure RunOut where
  msgs : List Msg
  events : List Event
  finalized : Option IndexingMetadata
  published : Option IndexingMetadata
deriving DecidableEq

/-- Accumulated state of the upload loop (lines 106–115): the records appended
to `indexing_metadata['files']`, the successful `put_object` calls, the
`img_format` set, and whether the loop ran to completion without raising. -/
structure LoopResult where
  files : List Record
  events : List Event
  fmts : List String
  ok : Bool
deriving DecidableEq

/-- The `for file_details in metadata` loop: look up `image_path` and
`image_type` (a missing key raises), add the type to `img_format`, open the
file and `put_object` it, then set the record's `bucket` field and append the
record to the outbound list.  Any raise stops the loop with `ok := false`. -/
def uploadLoop (w : World) (dir b : String) : Nat → List Record → List String → LoopResult
  | _, [], fmts => ⟨[], [], fmts, true⟩
  | i, r :: rs, fmts =>
    match lookupKey r "image_path", lookupKey r "image_type" with
    | some p, some t =>
      let fmts1 := addFmt fmts t
      if w.openOk i then
        if w.putOk i then
          let rest := uploadLoop w dir b (i + 1) rs fmts1
          { rest with
            files := dictSet r "bucket" b :: rest.files,
            events := Event.putObject b (pathJoin dir p) :: rest.events }
        else ⟨[], [], fmts1, false⟩
      else ⟨[], [], fmts1, false⟩
    | _, _ => ⟨[], [], fmts, false⟩

/-- Result of the storage `try` block. -/
structure StoreResult where
  msgs : List Msg
  events : List Event
  indexing : Option IndexingMetadata
deriving DecidableEq

/-- Continuation of the storage step after the bucket exists (or was created):
run the upload loop and, on success, assemble `dataset_details` and the full
`indexing_metadata`. -/
def afterBucket (a : Args) (w : World) (b : String) (ms : List Msg) (es : List Event) :
    StoreResult :=
  let lr := uploadLoop w a.dir_path b 0 w.metadata []
  if lr.ok then
    { msgs := ms ++ [Msg.uploadedDataset a.dir_path b],
      events := es ++ lr.events,
      indexing := some
        { files := lr.files,
          dataset_name := b,
          dataset_details :=
            { name := a.dir_path, bucket := b, date := w.today,
              size := get_dataset_size w.tree, filetype := lr.fmts } } }
  else { msgs := ms ++ [Msg.uploadError], events := es ++ lr.events, indexing := none }

/-- The storage `try` block (lines 95–132): bucket-exists check, bucket
creation when needed, then the upload loop; any raise falls into the `except`
that prints the generic upload error and returns. -/
def storageStep (a : Args) (w : World) (b : String) : StoreResult :=
  match w.bucketExistsAns with
  | none => { msgs := [Msg.uploadError], events := [], indexing := none }
  | some true =>
      afterBucket a w b [Msg.bucketAlreadyExists b] [Event.bucketExistsCheck b true]
  | some false =>
      if w.makeBucketOk then
        afterBucket a w b [Msg.bucketCreated b]
          [Event.bucketExistsCheck b false, Event.makeBucket b]
      else
        { msgs := [Msg.uploadError],
          events := [Event.bucketExistsCheck b false], indexing := none }

/-- Result of the RabbitMQ `try` block. -/
structure BrokerResult where
  msgs : List Msg
  events : List Event
  published : Option IndexingMetadata
deriving DecidableEq

/-- The RabbitMQ `try` block (lines 135–151): connect, declare the queue
durable, publish the serialized indexing metadata with `delivery_mode=2`,
print the success line, close; any raise prints the generic send error. -/
def brokerStep (a : Args) (m : IndexingMetadata) : BrokerOutcome → BrokerResult
  | BrokerOutcome.connFail => { msgs := [Msg.sendError], events := [], published := none }
  | BrokerOutcome.declareFail => { msgs := [Msg.sendError], events := [], published := none }
  | BrokerOutcome.publishFail =>
      { msgs := [Msg.sendError],
        events := [Event.queueDeclare a.queue true], published := none }
  | BrokerOutcome.closeFail =>
      { msgs := [Msg.sentMetadata a.dir_path a.queue, Msg.sendError],
        events := [Event.queueDeclare a.queue true, Event.publish a.queue m 2],
        published := some m }
  | BrokerOutcome.ok =>
      { msgs := [Msg.sentMetadata a.dir_path a.queue],
        events := [Event.queueDeclare a.queue true, Event.publish a.queue m 2,
                   Event.closeConn],
        published := some m }

/-- `os.path.join(dir_path, metadatafile)`. -/
def metadataPath (a : Args) : String :=
  pathJoin a.dir_path a.metadatafile

/-- The URL of the schema GET: `f'{API}/{dataclass}'`. -/
def schemaUrl (a : Args) (w : World) : String :=
  w.api ++ "/" ++ a.dataclass

/-- The pipeline from successful validation on: resolve the bucket name,
construct the MinIO client, run the storage step and, if it completed, the
broker step. -/
def afterValidate (a : Args) (w : World) : RunOut :=
  let b := deriveBucket a.bucket a.dir_path
  let st := storageStep a w b
  match st.indexing with
  | none =>
      { msgs := Msg.validated (metadataPath a) :: st.msgs,
        events := Event.httpGet (schemaUrl a w) :: Event.minioInit a.endpoint :: st.events,
        finalized := none, published := none }
  | some m =>
      let br := brokerStep a m w.broker
      { msgs := Msg.validated (metadataPath a) :: (st.msgs ++ br.msgs),
        events := (Event.httpGet (schemaUrl a w) :: Event.minioInit a.endpoint ::
          st.events) ++ br.events,
        finalized := some m, published := br.published }

/-- The pipeline from a non-raising schema response on: `jsonschema.validate`
either succeeds or sends the run into the mismatch message. -/
def afterFetch (a : Args) (w : World) : RunOut :=
  if w.validates then afterValidate a w
  else
    { msgs := [Msg.schemaMismatch (metadataPath a)],
      events := [Event.httpGet (schemaUrl a w)],
      finalized := none, published := none }

/-- The pipeline from a present metadata file on: issue the schema GET and
dispatch on its outcome. -/
def afterLoad (a : Args) (w : World) : RunOut :=
  match w.http with
  | HttpResult.connError =>
      { msgs := [Msg.connectFailed],
        events := [Event.httpGet (schemaUrl a w)],
        finalized := none, published := none }
  | HttpResult.response st =>
      if raiseForStatus st then
        { msgs := [Msg.cannotRetrieve a.dataclass],
          events := [Event.httpGet (schemaUrl a w)],
          finalized := none, published := none }
      else afterFetch a w

/-- The whole `upload_dataset` command: check the metadata file exists, then
run the load → fetch → validate → upload → announce pipeline. -/
def upload_dataset (a : Args) (w : World) : RunOut :=
  if w.metadataExists then afterLoad a w
  else
    { msgs := [Msg.metadataMissing (metadataPath a)],
      events := [], finalized := none, published := none }

example : deriveBucket "" "a/b/MyData" = "mydata" := by decide

example : deriveBucket "" "catset" = "catset" := by decide

example : deriveBucket "" "a/b/" = "" := by decide

example : pathJoin "catset" "metadata.json" = "catset/metadata.json" := by decide

/-! ## Helper lemmas: the Python string primitives -/

theorem splitSlashAux_ne_nil (l : List Char) : splitSlashAux l ≠ [] := by
  induction l with
  | nil => simp [splitSlashAux]
  | cons c cs ih =>
    simp only [splitSlashAux]
    split
    · simp
    · split
      · simp
      · simp

theorem splitSlashAux_append_slash (l : List Char) :
    splitSlashAux (l ++ ['/']) = splitSlashAux l ++ [[]] := by
  induction l with
  | nil => rfl
  | cons c cs ih =>
    by_cases hc : c = '/'
    · subst hc
      simp [splitSlashAux, ih]
    · rcases h : splitSlashAux cs with _ | ⟨t, ts⟩
      · exact absurd h (splitSlashAux_ne_nil cs)
      · simp [splitSlashAux, hc, ih, h]

theorem splitSlashAux_no_slash (l : List Char) (h : '/' ∉ l) : splitSlashAux l = [l] := by
  induction l with
  | nil => rfl
  | cons c cs ih =>
    have hc : c ≠ '/' := by
      rintro rfl
      exact h (List.mem_cons_self _ _)
    have hcs := ih (fun hm => h (List.mem_cons_of_mem _ hm))
    simp [splitSlashAux, fun hh : c = '/' => hc hh, hcs]

/-! ## Helper lemmas: records as Python dicts -/

theorem lookupKey_dictSet_self (r : Record) (k v : String) :
    lookupKey (dictSet r k v) k = some v := by
  induction r with
  | nil => simp [dictSet, lookupKey]
  | cons p r ih =>
    by_cases hk : p.1 = k
    · simp [dictSet, hk, lookupKey]
    · simp [dictSet, hk, lookupKey, ih]

theorem lookupKey_dictSet_ne (r : Record) (k v k' : String) (h : k' ≠ k) :
    lookupKey (dictSet r k v) k' = lookupKey r k' := by
  have hkk : k ≠ k' := fun hh => h hh.symm
  induction r with
  | nil => simp [dictSet, lookupKey, hkk]
  | cons p r ih =>
    by_cases hk : p.1 = k
    · have hp : p.1 ≠ k' := by
        rw [hk]
        exact hkk
      simp [dictSet, hk, lookupKey, hkk, hp]
    · simp only [dictSet, if_neg hk, lookupKey]
      by_cases hk' : p.1 = k'
      · simp [hk']
      · simp [hk', ih]

theorem countKey_eq_zero (r : Record) (k : String) (h : k ∉ r.map Prod.fst) :
    countKey r k = 0 := by
  rw [countKey, List.countP_eq_zero]
  intro p hp
  simp only [beq_iff_eq]
  intro hk
  exact h (List.mem_map.mpr ⟨p, hp, hk⟩)

theorem countKey_dictSet (r : Record) (k v : String) (h : keysNodup r) :
    countKey (dictSet r k v) k = 1 := by
  induction r with
  | nil => simp [dictSet, countKey, List.countP_cons]
  | cons p r ih =>
    rcases List.nodup_cons.mp h with ⟨hp, hr⟩
    by_cases hk : p.1 = k
    · have hzero : countKey r k = 0 := countKey_eq_zero r k (hk ▸ hp)
      simp [dictSet, hk, countKey, List.countP_cons] at hzero ⊢
      exact hzero
    · have := ih hr
      simp [dictSet, hk, countKey, List.countP_cons, hk] at this ⊢
      exact this

/-! ## Helper lemmas: the upload loop -/

theorem uploadLoop_ok_files (w : World) (dir b : String) :
    ∀ (rs : List Record) (i : Nat) (fmts : List String),
      (uploadLoop w dir b i rs fmts).ok = true →
      (uploadLoop w dir b i rs fmts).files = rs.map (fun r => dictSet r "bucket" b) := by
  intro rs
  induction rs with
  | nil =>
    intro i fmts _
    rfl
  | cons r rs ih =>
    intro i fmts hok
    rcases hp : lookupKey r "image_path" with _ | p
    · simp [uploadLoop, hp] at hok
    rcases ht : lookupKey r "image_type" with _ | t
    · simp [uploadLoop, hp, ht] at hok
    by_cases ho : w.openOk i
    · by_cases hpk : w.putOk i
      · simp only [uploadLoop, hp, ht, ho, hpk, if_true] at hok ⊢
        simp only [List.map_cons, List.cons.injEq, true_and]
        exact ih (i + 1) (addFmt fmts t) hok
      · simp [uploadLoop, hp, ht, ho, hpk] at hok
    · simp [uploadLoop, hp, ht, ho] at hok

theorem uploadLoop_mem_files (w : World) (dir b : String) :
    ∀ (rs : List Record) (i : Nat) (fmts : List String) (r' : Record),
      r' ∈ (uploadLoop w dir b i rs fmts).files →
      ∃ p, lookupKey r' "image_path" = some p ∧
        lookupKey r' "bucket" = some b ∧
        Event.putObject b (pathJoin dir p) ∈ (uploadLoop w dir b i rs fmts).events := by
  intro rs
  induction rs with
  | nil =>
    intro i fmts r' hr
    simp [uploadLoop] at hr
  | cons r rs ih =>
    intro i fmts r' hr
    rcases hp : lookupKey r "image_path" with _ | p
    · simp [uploadLoop, hp] at hr
    rcases ht : lookupKey r "image_type" with _ | t
    · simp [uploadLoop, hp, ht] at hr
    by_cases ho : w.openOk i
    · by_cases hpk : w.putOk i
      · simp only [uploadLoop, hp, ht, ho, hpk, if_true] at hr ⊢
        rcases List.mem_cons.mp hr with h1 | h2
        · refine ⟨p, ?_, ?_, ?_⟩
          · rw [h1, lookupKey_dictSet_ne r "bucket" b "image_path" (by decide)]
            exact hp
          · rw [h1]
            exact lookupKey_dictSet_self r "bucket" b
          · exact List.mem_cons_self _ _
        · rcases ih (i + 1) (addFmt fmts t) r' h2 with ⟨q, hq1, hq2, hq3⟩
          exact ⟨q, hq1, hq2, List.mem_cons_of_mem _ hq3⟩
      · simp [uploadLoop, hp, ht, ho, hpk] at hr
    · simp [uploadLoop, hp, ht, ho] at hr

theorem uploadLoop_mem_events (w : World) (dir b : String) :
    ∀ (rs : List Record) (i : Nat) (fmts : List String) (e : Event),
      e ∈ (uploadLoop w dir b i rs fmts).events → ∃ k, e = Event.putObject b k := by
  intro rs
  induction rs with
  | nil =>
    intro i fmts e he
    simp [uploadLoop] at he
  | cons r rs ih =>
    intro i fmts e he
    rcases hp : lookupKey r "image_path" with _ | p
    · simp [uploadLoop, hp] at he
    rcases ht : lookupKey r "image_type" with _ | t
    · simp [uploadLoop, hp, ht] at he
    by_cases ho : w.openOk i
    · by_cases hpk : w.putOk i
      · simp only [uploadLoop, hp, ht, ho, hpk, if_true] at he
        rcases List.mem_cons.mp he with h1 | h2
        · exact ⟨pathJoin dir p, h1⟩
        · exact ih (i + 1) (addFmt fmts t) e h2
      · simp [uploadLoop, hp, ht, ho, hpk] at he
    · simp [uploadLoop, hp, ht, ho] at he

/-! ## Helper lemmas: the storage step -/

theorem afterBucket_events (a : Args) (w : World) (b : String) (ms : List Msg)
    (es : List Event) :
    (afterBucket a w b ms es).events =
      es ++ (uploadLoop w a.dir_path b 0 w.metadata []).events := by
  by_cases hok : (uploadLoop w a.dir_path b 0 w.metadata []).ok
  · simp [afterBucket, hok]
  · simp [afterBucket, hok]

theorem afterBucket_indexing_some (a : Args) (w : World) (b : String) (ms : List Msg)
    (es : List Event) (m : IndexingMetadata)
    (h : (afterBucket a w b ms es).indexing = some m) :
    (uploadLoop w a.dir_path b 0 w.metadata []).ok = true ∧
    m = { files := (uploadLoop w a.dir_path b 0 w.metadata []).files,
          dataset_name := b,
          dataset_details :=
            { name := a.dir_path, bucket := b, date := w.today,
              size := get_dataset_size w.tree,
              filetype := (uploadLoop w a.dir_path b 0 w.metadata []).fmts } } := by
  by_cases hok : (uploadLoop w a.dir_path b 0 w.metadata []).ok
  · simp only [afterBucket, hok, if_true] at h
    refine ⟨hok, ?_⟩
    simpa using h.symm
  · simp [afterBucket, hok] at h

theorem afterBucket_indexing_none (a : Args) (w : World) (b : String) (ms : List Msg)
    (es : List Event)
    (h : (afterBucket a w b ms es).indexing = none) :
    (afterBucket a w b ms es).msgs = ms ++ [Msg.uploadError] := by
  by_cases hok : (uploadLoop w a.dir_path b 0 w.metadata []).ok
  · simp [afterBucket, hok] at h
  · simp [afterBucket, hok]

theorem storageStep_indexing_some (a : Args) (w : World) (b : String) (m : IndexingMetadata)
    (h : (storageStep a w b).indexing = some m) :
    (uploadLoop w a.dir_path b 0 w.metadata []).ok = true ∧
    m = { files := (uploadLoop w a.dir_path b 0 w.metadata []).files,
          dataset_name := b,
          dataset_details :=
            { name := a.dir_path, bucket := b, date := w.today,
              size := get_dataset_size w.tree,
              filetype := (uploadLoop w a.dir_path b 0 w.metadata []).fmts } } ∧
    ∀ e ∈ (uploadLoop w a.dir_path b 0 w.metadata []).events,
      e ∈ (storageStep a w b).events := by
  rcases hb : w.bucketExistsAns with _ | ex
  · simp [storageStep, hb] at h
  · cases ex
    · by_cases hmk : w.makeBucketOk
      · have h' := h
        simp only [storageStep, hb, hmk, if_true] at h'
        rcases afterBucket_indexing_some _ _ _ _ _ _ h' with ⟨hok, hm⟩
        refine ⟨hok, hm, ?_⟩
        intro e he
        simp only [storageStep, hb, hmk, if_true, afterBucket_events]
        exact List.mem_append_right _ he
      · simp [storageStep, hb, hmk] at h
    · have h' := h
      simp only [storageStep, hb] at h'
      rcases afterBucket_indexing_some _ _ _ _ _ _ h' with ⟨hok, hm⟩
      refine ⟨hok, hm, ?_⟩
      intro e he
      simp only [storageStep, hb, afterBucket_events]
      exact List.mem_append_right _ he

theorem storageStep_indexing_none (a : Args) (w : World) (b : String)
    (h : (storageStep a w b).indexing = none) :
    Msg.uploadError ∈ (storageStep a w b).msgs := by
  rcases hb : w.bucketExistsAns with _ | ex
  · simp [storageStep, hb]
  · cases ex
    · by_cases hmk : w.makeBucketOk
      · have h' := h
        simp only [storageStep, hb, hmk, if_true] at h' ⊢
        rw [afterBucket_indexing_none _ _ _ _ _ h']
        simp
      · simp [storageStep, hb, hmk]
    · have h' := h
      simp only [storageStep, hb] at h' ⊢
      rw [afterBucket_indexing_none _ _ _ _ _ h']
      simp

theorem storageStep_events_class (a : Args) (w : World) (b : String) :
    ∀ e ∈ (storageStep a w b).events,
      brokerEvent e = false ∧ ∀ bk k, e ≠ Event.removeObject bk k := by
  intro e he
  have hput : (∃ k, e = Event.putObject b k) →
      brokerEvent e = false ∧ ∀ bk k, e ≠ Event.removeObject bk k := by
    rintro ⟨k, rfl⟩
    exact ⟨rfl, fun bk k' => by simp⟩
  rcases hb : w.bucketExistsAns with _ | ex
  · simp [storageStep, hb] at he
  · cases ex
    · by_cases hmk : w.makeBucketOk
      · simp only [storageStep, hb, hmk, if_true, afterBucket_events] at he
        rcases List.mem_append.mp he with h1 | h2
        · simp only [List.mem_cons, List.not_mem_nil, or_false] at h1
          rcases h1 with rfl | rfl
          · exact ⟨rfl, fun bk k => by simp⟩
          · exact ⟨rfl, fun bk k => by simp⟩
        · exact hput (uploadLoop_mem_events w a.dir_path b _ _ _ e h2)
      · simp only [storageStep, hb, hmk, if_false, Bool.false_eq_true] at he
        simp at he
        subst he
        exact ⟨rfl, fun bk k => by simp⟩
    · simp only [storageStep, hb, afterBucket_events] at he
      rcases List.mem_append.mp he with h1 | h2
      · simp at h1
        subst h1
        exact ⟨rfl, fun bk k => by simp⟩
      · exact hput (uploadLoop_mem_events w a.dir_path b _ _ _ e h2)

example :
    (upload_dataset
      { dir_path := "catset", metadatafile := "metadata.json", dataclass := "animals",
        bucket := "", endpoint := "minio:9000", queue := "q" }
      { api := "http://api", metadataExists := true,
        metadata := [[("image_path", "cat1.jpg"), ("image_type", "jpg")],
                     [("image_path", "cat2.png"), ("image_type", "png")]],
        http := HttpResult.response 200, validates := true,
        bucketExistsAns := some false, makeBucketOk := true,
        openOk := fun _ => true, putOk := fun _ => true,
        tree := [("catset/cat1.jpg", 10), ("catset/cat2.png", 20),
                 ("catset/metadata.json", 5)],
        today := "2026-10-12", broker := BrokerOutcome.ok }).finalized =
    some
      { files := [[("image_path", "cat1.jpg"), ("image_type", "jpg"), ("bucket", "catset")],
                  [("image_path", "cat2.png"), ("image_type", "png"), ("bucket", "catset")]],
        dataset_name := "catset",
        dataset_details :=
          { name := "catset", bucket := "catset", date := "2026-10-12",
            size := 35, filetype := ["jpg", "png"] } } := by decide

/-! ## Helper lemmas: shape of a whole run -/

theorem afterValidate_indexing_some (a : Args) (w : World) (m : IndexingMetadata)
    (hidx : (storageStep a w (deriveBucket a.bucket a.dir_path)).indexing = some m) :
    afterValidate a w =
      { msgs := Msg.validated (metadataPath a) ::
          ((storageStep a w (deriveBucket a.bucket a.dir_path)).msgs ++
            (brokerStep a m w.broker).msgs),
        events := (Event.httpGet (schemaUrl a w) :: Event.minioInit a.endpoint ::
          (storageStep a w (deriveBucket a.bucket a.dir_path)).events) ++
          (brokerStep a m w.broker).events,
        finalized := some m,
        published := (brokerStep a m w.broker).published } := by
  simp [afterValidate, hidx]

theorem afterValidate_indexing_none (a : Args) (w : World)
    (hidx : (storageStep a w (deriveBucket a.bucket a.dir_path)).indexing = none) :
    afterValidate a w =
      { msgs := Msg.validated (metadataPath a) ::
          (storageStep a w (deriveBucket a.bucket a.dir_path)).msgs,
        events := Event.httpGet (schemaUrl a w) :: Event.minioInit a.endpoint ::
          (storageStep a w (deriveBucket a.bucket a.dir_path)).events,
        finalized := none, published := none } := by
  simp [afterValidate, hidx]

theorem upload_dataset_validated (a : Args) (w : World) (st : Nat)
    (hme : w.metadataExists = true) (hh : w.http = HttpResult.response st)
    (hst : raiseForStatus st = false) (hv : w.validates = true) :
    upload_dataset a w = afterValidate a w := by
  simp [upload_dataset, afterLoad, afterFetch, hme, hh, hst, hv]

theorem upload_dataset_finalized_inv (a : Args) (w : World) (m : IndexingMetadata)
    (h : (upload_dataset a w).finalized = some m) :
    w.metadataExists = true ∧ w.validates = true ∧
    (∃ st, w.http = HttpResult.response st ∧ raiseForStatus st = false) ∧
    (storageStep a w (deriveBucket a.bucket a.dir_path)).indexing = some m ∧
    upload_dataset a w =
      { msgs := Msg.validated (metadataPath a) ::
          ((storageStep a w (deriveBucket a.bucket a.dir_path)).msgs ++
            (brokerStep a m w.broker).msgs),
        events := (Event.httpGet (schemaUrl a w) :: Event.minioInit a.endpoint ::
          (storageStep a w (deriveBucket a.bucket a.dir_path)).events) ++
          (brokerStep a m w.broker).events,
        finalized := some m,
        published := (brokerStep a m w.broker).published } := by
  by_cases hme : w.metadataExists
  · rcases hh : w.http with _ | st
    · simp [upload_dataset, afterLoad, hme, hh] at h
    · by_cases hst : raiseForStatus st
      · simp [upload_dataset, afterLoad, hme, hh, hst] at h
      · by_cases hv : w.validates
        · have hrun : upload_dataset a w = afterValidate a w :=
            upload_dataset_validated a w st hme hh (by simpa using hst) hv
          rcases hidx : (storageStep a w (deriveBucket a.bucket a.dir_path)).indexing
            with _ | m'
          · rw [hrun, afterValidate_indexing_none a w hidx] at h
            simp at h
          · rw [hrun, afterValidate_indexing_some a w m' hidx] at h
            simp only [Option.some.injEq] at h
            subst h
            exact ⟨hme, hv, ⟨st, rfl, by simpa using hst⟩, rfl,
              by rw [hrun, afterValidate_indexing_some a w m' hidx]⟩
        · simp [upload_dataset, afterLoad, afterFetch, hme, hh, hst, hv] at h
  · simp [upload_dataset, hme] at h

/-! ## The claims -/

/-- C1: for every run that reaches the announcer, every file-detail record in
the outbound message's `files` list corresponds to a file whose `put_object`
upload succeeded, and the record's `bucket` field names the bucket that file
was uploaded to (the record is appended only after `put_object` returns
without raising). -/
theorem C1_files_upload_invariant (a : Args) (w : World) (m : IndexingMetadata)
    (h : (upload_dataset a w).finalized = some m) :
    ∀ r ∈ m.files, ∃ p,
      lookupKey r "image_path" = some p ∧
      lookupKey r "bucket" = some (deriveBucket a.bucket a.dir_path) ∧
      Event.putObject (deriveBucket a.bucket a.dir_path) (pathJoin a.dir_path p) ∈
        (upload_dataset a w).events := by
  rcases upload_dataset_finalized_inv a w m h with ⟨hme, hv, ⟨st, hh, hst⟩, hidx, hrun⟩
  rcases storageStep_indexing_some a w _ m hidx with ⟨hok, hm, hev⟩
  intro r hr
  have hr' : r ∈ (uploadLoop w a.dir_path (deriveBucket a.bucket a.dir_path)
      0 w.metadata []).files := by
    rw [hm] at hr
    exact hr
  rcases uploadLoop_mem_files w a.dir_path _ w.metadata 0 [] r hr' with ⟨p, hp1, hp2, hp3⟩
  refine ⟨p, hp1, hp2, ?_⟩
  have hmem := hev _ hp3
  rw [hrun]
  exact List.mem_append_left _ (List.mem_cons_of_mem _ (List.mem_cons_of_mem _ hmem))

/-- C2: for every metadata document that validates and whose uploads all
succeed, the outbound `files` list has the same length as the input metadata
list, in document order, and each entry is the input record with exactly one
`bucket` field set to the resolved bucket name, all other fields unchanged. -/
theorem C2_outbound_files_shape (a : Args) (w : World) (m : IndexingMetadata)
    (h : (upload_dataset a w).finalized = some m)
    (hwf : ∀ r ∈ w.metadata, keysNodup r) :
    m.files.length = w.metadata.length ∧
    m.files = w.metadata.map
      (fun r => dictSet r "bucket" (deriveBucket a.bucket a.dir_path)) ∧
    (∀ r ∈ m.files, countKey r "bucket" = 1) ∧
    (∀ j, j < w.metadata.length → ∀ k, k ≠ "bucket" →
      lookupKey (m.files.getD j []) k = lookupKey (w.metadata.getD j []) k) ∧
    (∀ j, j < w.metadata.length →
      lookupKey (m.files.getD j []) "bucket" =
        some (deriveBucket a.bucket a.dir_path)) := by
  rcases upload_dataset_finalized_inv a w m h with ⟨hme, hv, ⟨st, hh, hst⟩, hidx, hrun⟩
  rcases storageStep_indexing_some a w _ m hidx with ⟨hok, hm, hev⟩
  have hfiles : m.files = w.metadata.map
      (fun r => dictSet r "bucket" (deriveBucket a.bucket a.dir_path)) := by
    rw [hm]
    exact uploadLoop_ok_files w a.dir_path _ w.metadata 0 [] hok
  have hgetD : ∀ j, j < w.metadata.length →
      m.files.getD j [] = dictSet (w.metadata.getD j []) "bucket"
        (deriveBucket a.bucket a.dir_path) := by
    intro j hj
    have h1 : w.metadata.get? j = some (w.metadata.get ⟨j, hj⟩) := List.get?_eq_get hj
    have h2 : m.files.get? j = some (dictSet (w.metadata.get ⟨j, hj⟩) "bucket"
        (deriveBucket a.bucket a.dir_path)) := by
      rw [hfiles, List.get?_map, h1]
      rfl
    show (m.files.get? j).getD [] = dictSet ((w.metadata.get? j).getD []) "bucket"
      (deriveBucket a.bucket a.dir_path)
    rw [h1, h2]
    rfl
  refine ⟨by rw [hfiles, List.length_map], hfiles, ?_, ?_, ?_⟩
  · intro r hr
    rw [hfiles] at hr
    rcases List.mem_map.mp hr with ⟨r0, hr0, hre⟩
    rw [← hre]
    exact countKey_dictSet r0 "bucket" _ (hwf r0 hr0)
  · intro j hj k hk
    rw [hgetD j hj]
    exact lookupKey_dictSet_ne _ "bucket" _ k hk
  · intro j hj
    rw [hgetD j hj]
    exact lookupKey_dictSet_self _ "bucket" _

/-- C3: with no explicit bucket flag, the bucket name is the final segment of
the directory path after splitting on `'/'`, lower-cased; `a/b/MyData` yields
`mydata`, and a path with no `'/'` yields the whole path lower-cased. -/
theorem C3_bucket_name_derivation (dir : String) :
    deriveBucket "" dir = pyLower (String.mk ((splitSlashAux dir.data).getLastD [])) ∧
    (dir.data.contains '/' = false → deriveBucket "" dir = pyLower dir) ∧
    deriveBucket "" "a/b/MyData" = "mydata" := by
  refine ⟨?_, ?_, by decide⟩
  · by_cases hcm : '/' ∈ dir.data
    · simp [deriveBucket, hcm]
    · rw [splitSlashAux_no_slash dir.data hcm]
      simp [deriveBucket, hcm]
  · intro hc
    have hcm : '/' ∉ dir.data := by
      intro hm
      have hc' : dir.data.contains '/' = true := List.elem_iff.mpr hm
      rw [hc'] at hc
      exact Bool.noConfusion hc
    simp [deriveBucket, hcm]

/-- C4: on full upload success, `dataset_details.size` is the sum of the byte
sizes of the regular files found by the recursive walk of the dataset
directory, independent of which files the metadata document lists. -/
theorem C4_dataset_size_recursive_walk (a : Args) (w : World) (m : IndexingMetadata)
    (h : (upload_dataset a w).finalized = some m) :
    m.dataset_details.size = (w.tree.map Prod.snd).sum ∧
    ∀ (w₂ : World) (m₂ : IndexingMetadata), w₂.tree = w.tree →
      (upload_dataset a w₂).finalized = some m₂ →
      m₂.dataset_details.size = m.dataset_details.size := by
  have main : ∀ (w' : World) (m' : IndexingMetadata),
      (upload_dataset a w').finalized = some m' →
      m'.dataset_details.size = get_dataset_size w'.tree := by
    intro w' m' h'
    rcases upload_dataset_finalized_inv a w' m' h' with ⟨_, _, _, hidx, _⟩
    rcases storageStep_indexing_some a w' _ m' hidx with ⟨_, hm, _⟩
    rw [hm]
  refine ⟨main w m h, fun w₂ m₂ ht h₂ => ?_⟩
  rw [main w₂ m₂ h₂, main w m h, get_dataset_size, get_dataset_size, ht]

/-- C5: when the metadata fails schema validation, the run prints the
mismatch message and returns before any storage side effect: no storage
client interaction at all, hence no bucket creation and no object upload. -/
theorem C5_validation_failure_no_storage (a : Args) (w : World) (st : Nat)
    (hme : w.metadataExists = true) (hh : w.http = HttpResult.response st)
    (hst : raiseForStatus st = false) (hv : w.validates = false) :
    (upload_dataset a w).msgs = [Msg.schemaMismatch (metadataPath a)] ∧
    (∀ e ∈ (upload_dataset a w).events, storageEvent e = false) ∧
    (upload_dataset a w).events = [Event.httpGet (schemaUrl a w)] ∧
    (upload_dataset a w).finalized = none ∧
    (upload_dataset a w).published = none := by
  have hrun : upload_dataset a w =
      { msgs := [Msg.schemaMismatch (metadataPath a)],
        events := [Event.httpGet (schemaUrl a w)],
        finalized := none, published := none } := by
    simp [upload_dataset, afterLoad, afterFetch, hme, hh, hst, hv]
  rw [hrun]
  refine ⟨rfl, ?_, rfl, rfl, rfl⟩
  intro e he
  simp only [List.mem_cons, List.not_mem_nil, or_false] at he
  subst he
  rfl

/-- C6: when the metadata file does not exist, the run prints the missing-file
message and returns with no HTTP, storage or broker operation of any kind. -/
theorem C6_missing_metadata_aborts (a : Args) (w : World)
    (hme : w.metadataExists = false) :
    (upload_dataset a w).msgs = [Msg.metadataMissing (metadataPath a)] ∧
    (upload_dataset a w).events = [] ∧
    (upload_dataset a w).finalized = none ∧
    (upload_dataset a w).published = none := by
  simp [upload_dataset, hme]

/-- C7: any exception during the bucket-exists check, bucket creation or a
single file's upload makes the run print the generic upload error and return:
nothing is ever published to the broker in that run, and objects uploaded
before the failing file are not deleted (the trace keeps every completed
storage call and contains no remove-object call). -/
theorem C7_upload_exception_no_publish_no_rollback (a : Args) (w : World) (st : Nat)
    (hme : w.metadataExists = true) (hh : w.http = HttpResult.response st)
    (hst : raiseForStatus st = false) (hv : w.validates = true)
    (hfail : (upload_dataset a w).finalized = none) :
    Msg.uploadError ∈ (upload_dataset a w).msgs ∧
    (upload_dataset a w).published = none ∧
    (∀ e ∈ (upload_dataset a w).events, brokerEvent e = false) ∧
    (∀ bk k, Event.removeObject bk k ∉ (upload_dataset a w).events) ∧
    (∀ e ∈ (storageStep a w (deriveBucket a.bucket a.dir_path)).events,
      e ∈ (upload_dataset a w).events) := by
  have hrun := upload_dataset_validated a w st hme hh hst hv
  rcases hidx : (storageStep a w (deriveBucket a.bucket a.dir_path)).indexing with _ | m
  · have hshape := afterValidate_indexing_none a w hidx
    rw [hrun, hshape]
    refine ⟨?_, rfl, ?_, ?_, ?_⟩
    · exact List.mem_cons_of_mem _ (storageStep_indexing_none a w _ hidx)
    · intro e he
      simp only [List.mem_cons] at he
      rcases he with rfl | rfl | he
      · rfl
      · rfl
      · exact (storageStep_events_class a w _ e he).1
    · intro bk k hmem
      simp only [List.mem_cons] at hmem
      rcases hmem with h1 | h1 | h1
      · cases h1
      · cases h1
      · exact (storageStep_events_class a w _ _ h1).2 bk k rfl
    · intro e he
      exact List.mem_cons_of_mem _ (List.mem_cons_of_mem _ he)
  · rw [hrun, afterValidate_indexing_some a w m hidx] at hfail
    simp at hfail

/-- C8 (amended): the schema fetch issues an HTTP GET to `<API>/<dataclass>`;
a connection failure aborts with the connect-failed message, and a 4xx or
5xx response (the statuses `raise_for_status` raises for — not every
non-2xx status) aborts with the cannot-retrieve message; in both abort
cases the run returns before any validation or upload. -/
theorem C8_schema_fetch_protocol (a : Args) (w : World)
    (hme : w.metadataExists = true) :
    Event.httpGet (schemaUrl a w) ∈ (upload_dataset a w).events ∧
    (w.http = HttpResult.connError →
      (upload_dataset a w).msgs = [Msg.connectFailed] ∧
      (upload_dataset a w).events = [Event.httpGet (schemaUrl a w)] ∧
      (upload_dataset a w).finalized = none ∧
      (upload_dataset a w).published = none) ∧
    (∀ st, w.http = HttpResult.response st → 400 ≤ st → st < 600 →
      (upload_dataset a w).msgs = [Msg.cannotRetrieve a.dataclass] ∧
      (upload_dataset a w).events = [Event.httpGet (schemaUrl a w)] ∧
      (upload_dataset a w).finalized = none ∧
      (upload_dataset a w).published = none) := by
  refine ⟨?_, ?_, ?_⟩
  · rcases hh : w.http with _ | st
    · simp [upload_dataset, afterLoad, hme, hh]
    · by_cases hst : raiseForStatus st = true
      · simp [upload_dataset, afterLoad, hme, hh, hst]
      · by_cases hv : w.validates
        · have hrun := upload_dataset_validated a w st hme hh
            (by simpa using hst) hv
          rw [hrun]
          rcases hidx : (storageStep a w (deriveBucket a.bucket a.dir_path)).indexing
            with _ | m
          · rw [afterValidate_indexing_none a w hidx]
            exact List.mem_cons_self _ _
          · rw [afterValidate_indexing_some a w m hidx]
            exact List.mem_append_left _ (List.mem_cons_self _ _)
        · simp [upload_dataset, afterLoad, afterFetch, hme, hh, hst, hv]
  · intro hh
    simp [upload_dataset, afterLoad, hme, hh]
  · intro st hh h4 h6
    have hst : raiseForStatus st = true := by
      simp only [raiseForStatus, Bool.and_eq_true, decide_eq_true_eq]
      exact ⟨h4, h6⟩
    simp [upload_dataset, afterLoad, hme, hh, hst]

/-- C8, counterexample to the claim as stated: a `304` response is not a 2xx
response, yet `raise_for_status` does not raise for it, so the run does not
print the cannot-retrieve message and proceeds to schema validation instead
of returning. -/
theorem C8_counterexample_status_304 :
    (¬ (200 ≤ 304 ∧ 304 < 300)) ∧
    (upload_dataset
      { dir_path := "catset", metadatafile := "metadata.json",
        dataclass := "animals", bucket := "", endpoint := "minio:9000",
        queue := "q" }
      { api := "http://api", metadataExists := true, metadata := [],
        http := HttpResult.response 304, validates := false,
        bucketExistsAns := some true, makeBucketOk := true,
        openOk := fun _ => true, putOk := fun _ => true, tree := [],
        today := "2026-10-12", broker := BrokerOutcome.ok }).msgs =
      [Msg.schemaMismatch "catset/metadata.json"] ∧
    Msg.cannotRetrieve "animals" ∉
      (upload_dataset
        { dir_path := "catset", metadatafile := "metadata.json",
          dataclass := "animals", bucket := "", endpoint := "minio:9000",
          queue := "q" }
        { api := "http://api", metadataExists := true, metadata := [],
          http := HttpResult.response 304, validates := false,
          bucketExistsAns := some true, makeBucketOk := true,
          openOk := fun _ => true, putOk := fun _ => true, tree := [],
          today := "2026-10-12", broker := BrokerOutcome.ok }).msgs := by
  decide

/-- C9: when the upload step completed and the broker interaction succeeds,
the run declares the target queue durable, publishes exactly one message —
the finalized indexing metadata, unchanged, with `dataset_name` equal to the
bucket name — marked persistent (`delivery_mode` 2), and then closes the
connection. -/
theorem C9_announcer_contract (a : Args) (w : World) (m : IndexingMetadata)
    (h : (upload_dataset a w).finalized = some m)
    (hb : w.broker = BrokerOutcome.ok) :
    (upload_dataset a w).published = some m ∧
    m.dataset_name = deriveBucket a.bucket a.dir_path ∧
    ∃ pre, (upload_dataset a w).events =
        pre ++ [Event.queueDeclare a.queue true, Event.publish a.queue m 2,
                Event.closeConn] ∧
      ∀ e ∈ pre, brokerEvent e = false := by
  rcases upload_dataset_finalized_inv a w m h with ⟨hme, hv, ⟨st, hh, hst⟩, hidx, hrun⟩
  rcases storageStep_indexing_some a w _ m hidx with ⟨hok, hm, hev⟩
  rw [hrun]
  refine ⟨by simp [brokerStep, hb], by rw [hm], ?_⟩
  refine ⟨Event.httpGet (schemaUrl a w) :: Event.minioInit a.endpoint ::
    (storageStep a w (deriveBucket a.bucket a.dir_path)).events, ?_, ?_⟩
  · simp [brokerStep, hb]
  · intro e he
    simp only [List.mem_cons] at he
    rcases he with rfl | rfl | he
    · rfl
    · rfl
    · exact (storageStep_events_class a w _ e he).1

/-- C10: a directory path that ends with a trailing `'/'` (hence contains a
`'/'`) derives the empty bucket name — the last element of the split is the
empty segment, not the final directory component — and an explicitly supplied
bucket flag is used verbatim, without lower-casing. -/
theorem C10_trailing_slash_and_verbatim_flag (dir t b : String) :
    (dir = t ++ "/" → deriveBucket "" dir = "") ∧
    (b ≠ "" → ∀ d : String, deriveBucket b d = b) := by
  constructor
  · rintro rfl
    have hd : (t ++ "/").data = t.data ++ ['/'] := rfl
    have hc : (t.data ++ ['/']).contains '/' = true :=
      List.elem_iff.mpr (List.mem_append_right _ (by simp))
    have hder : deriveBucket "" (t ++ "/") =
        pyLower (String.mk ((splitSlashAux (t.data ++ ['/'])).getLastD [])) := by
      simp [deriveBucket, hd, hc]
    rw [hder, splitSlashAux_append_slash, List.getLastD_concat]
    decide
  · intro hb d
    simp [deriveBucket, hb]

/-! ## Concrete runs used as witnesses -/

/-- Concrete CLI arguments for the witness runs. -/
def argsEx : Args :=
  { dir_path := "catset", metadatafile := "metadata.json", dataclass := "animals",
    bucket := "", endpoint := "minio:9000", queue := "q" }

/-- A world in which every external operation succeeds. -/
def worldEx : World :=
  { api := "http://api", metadataExists := true,
    metadata := [[("image_path", "cat1.jpg"), ("image_type", "jpg")],
                 [("image_path", "cat2.png"), ("image_type", "png")]],
    http := HttpResult.response 200, validates := true,
    bucketExistsAns := some false, makeBucketOk := true,
    openOk := fun _ => true, putOk := fun _ => true,
    tree := [("catset/cat1.jpg", 10), ("catset/cat2.png", 20),
             ("catset/metadata.json", 5)],
    today := "2026-10-12", broker := BrokerOutcome.ok }

/-- The outbound message `upload_dataset argsEx worldEx` produces. -/
def metaEx : IndexingMetadata :=
  { files := [[("image_path", "cat1.jpg"), ("image_type", "jpg"), ("bucket", "catset")],
              [("image_path", "cat2.png"), ("image_type", "png"), ("bucket", "catset")]],
    dataset_name := "catset",
    dataset_details :=
      { name := "catset", bucket := "catset", date := "2026-10-12",
        size := 35, filetype := ["jpg", "png"] } }

/-- `worldEx` with metadata that fails schema validation. -/
def worldBadMeta : World :=
  { worldEx with validates := false }

/-- `worldEx` with the metadata file absent. -/
def worldNoFile : World :=
  { worldEx with metadataExists := false }

/-- `worldEx` with a 404 response to the schema GET. -/
def world404 : World :=
  { worldEx with http := HttpResult.response 404 }

/-- `worldEx` where the second file's `put_object` raises. -/
def worldPutFail : World :=
  { worldEx with putOk := fun i => decide (i = 0) }

/-! ## Witnesses -/

/-- Witness for C1 at a concrete successful two-file run. -/
theorem C1_files_upload_invariant_witness :
    (upload_dataset argsEx worldEx).finalized = some metaEx ∧
    ∀ r ∈ metaEx.files, ∃ p,
      lookupKey r "image_path" = some p ∧
      lookupKey r "bucket" = some (deriveBucket argsEx.bucket argsEx.dir_path) ∧
      Event.putObject (deriveBucket argsEx.bucket argsEx.dir_path)
        (pathJoin argsEx.dir_path p) ∈ (upload_dataset argsEx worldEx).events :=
  ⟨by decide, C1_files_upload_invariant argsEx worldEx metaEx (by decide)⟩

/-- Witness for C2 at a concrete successful two-file run. -/
theorem C2_outbound_files_shape_witness :
    ((upload_dataset argsEx worldEx).finalized = some metaEx ∧
      ∀ r ∈ worldEx.metadata, keysNodup r) ∧
    (metaEx.files.length = worldEx.metadata.length ∧
      metaEx.files = worldEx.metadata.map
        (fun r => dictSet r "bucket" (deriveBucket argsEx.bucket argsEx.dir_path)) ∧
      (∀ r ∈ metaEx.files, countKey r "bucket" = 1) ∧
      (∀ j, j < worldEx.metadata.length → ∀ k, k ≠ "bucket" →
        lookupKey (metaEx.files.getD j []) k = lookupKey (worldEx.metadata.getD j []) k) ∧
      (∀ j, j < worldEx.metadata.length →
        lookupKey (metaEx.files.getD j []) "bucket" =
          some (deriveBucket argsEx.bucket argsEx.dir_path))) :=
  ⟨⟨by decide, by decide⟩,
    C2_outbound_files_shape argsEx worldEx metaEx (by decide) (by decide)⟩

/-- Witness for C3: a path without `'/'` and the `a/b/MyData` example. -/
theorem C3_bucket_name_derivation_witness :
    ("somedata".data.contains '/' = false) ∧
    deriveBucket "" "somedata" = pyLower "somedata" ∧
    deriveBucket "" "a/b/MyData" = "mydata" :=
  ⟨by decide, (C3_bucket_name_derivation "somedata").2.1 (by decide),
    (C3_bucket_name_derivation "somedata").2.2⟩

/-- Witness for C4 at a concrete successful run. -/
theorem C4_dataset_size_recursive_walk_witness :
    (upload_dataset argsEx worldEx).finalized = some metaEx ∧
    (metaEx.dataset_details.size = (worldEx.tree.map Prod.snd).sum ∧
      ∀ (w₂ : World) (m₂ : IndexingMetadata), w₂.tree = worldEx.tree →
        (upload_dataset argsEx w₂).finalized = some m₂ →
        m₂.dataset_details.size = metaEx.dataset_details.size) :=
  ⟨by decide, C4_dataset_size_recursive_walk argsEx worldEx metaEx (by decide)⟩

/-- Witness for C5 at a concrete failing-validation run. -/
theorem C5_validation_failure_no_storage_witness :
    (worldBadMeta.metadataExists = true ∧
      worldBadMeta.http = HttpResult.response 200 ∧
      raiseForStatus 200 = false ∧ worldBadMeta.validates = false) ∧
    ((upload_dataset argsEx worldBadMeta).msgs =
        [Msg.schemaMismatch (metadataPath argsEx)] ∧
      (∀ e ∈ (upload_dataset argsEx worldBadMeta).events, storageEvent e = false) ∧
      (upload_dataset argsEx worldBadMeta).events =
        [Event.httpGet (schemaUrl argsEx worldBadMeta)] ∧
      (upload_dataset argsEx worldBadMeta).finalized = none ∧
      (upload_dataset argsEx worldBadMeta).published = none) :=
  ⟨⟨by decide, by decide, by decide, by decide⟩,
    C5_validation_failure_no_storage argsEx worldBadMeta 200
      (by decide) (by decide) (by decide) (by decide)⟩

/-- Witness for C6 at a concrete missing-metadata run. -/
theorem C6_missing_metadata_aborts_witness :
    worldNoFile.metadataExists = false ∧
    ((upload_dataset argsEx worldNoFile).msgs =
        [Msg.metadataMissing (metadataPath argsEx)] ∧
      (upload_dataset argsEx worldNoFile).events = [] ∧
      (upload_dataset argsEx worldNoFile).finalized = none ∧
      (upload_dataset argsEx worldNoFile).published = none) :=
  ⟨by decide, C6_missing_metadata_aborts argsEx worldNoFile (by decide)⟩

/-- Witness for C7 at a concrete run whose second upload raises. -/
theorem C7_upload_exception_no_publish_no_rollback_witness :
    (worldPutFail.metadataExists = true ∧
      worldPutFail.http = HttpResult.response 200 ∧
      raiseForStatus 200 = false ∧ worldPutFail.validates = true ∧
      (upload_dataset argsEx worldPutFail).finalized = none) ∧
    (Msg.uploadError ∈ (upload_dataset argsEx worldPutFail).msgs ∧
      (upload_dataset argsEx worldPutFail).published = none ∧
      (∀ e ∈ (upload_dataset argsEx worldPutFail).events, brokerEvent e = false) ∧
      (∀ bk k, Event.removeObject bk k ∉ (upload_dataset argsEx worldPutFail).events) ∧
      (∀ e ∈ (storageStep argsEx worldPutFail
          (deriveBucket argsEx.bucket argsEx.dir_path)).events,
        e ∈ (upload_dataset argsEx worldPutFail).events)) :=
  ⟨⟨by decide, by decide, by decide, by decide, by decide⟩,
    C7_upload_exception_no_publish_no_rollback argsEx worldPutFail 200
      (by decide) (by decide) (by decide) (by decide) (by decide)⟩

/-- Witness for C8 (amended) at a concrete 404 run. -/
theorem C8_schema_fetch_protocol_witness :
    (world404.metadataExists = true ∧
      world404.http = HttpResult.response 404 ∧ 400 ≤ 404 ∧ 404 < 600) ∧
    ((upload_dataset argsEx world404).msgs = [Msg.cannotRetrieve argsEx.dataclass] ∧
      (upload_dataset argsEx world404).events =
        [Event.httpGet (schemaUrl argsEx world404)] ∧
      (upload_dataset argsEx world404).finalized = none ∧
      (upload_dataset argsEx world404).published = none) :=
  ⟨⟨by decide, by decide, by decide, by decide⟩,
    (C8_schema_fetch_protocol argsEx world404 (by decide)).2.2 404
      (by decide) (by decide) (by decide)⟩

/-- Witness for C9 at a concrete successful run. -/
theorem C9_announcer_contract_witness :
    ((upload_dataset argsEx worldEx).finalized = some metaEx ∧
      worldEx.broker = BrokerOutcome.ok) ∧
    ((upload_dataset argsEx worldEx).published = some metaEx ∧
      metaEx.dataset_name = deriveBucket argsEx.bucket argsEx.dir_path ∧
      ∃ pre, (upload_dataset argsEx worldEx).events =
          pre ++ [Event.queueDeclare argsEx.queue true,
                  Event.publish argsEx.queue metaEx 2, Event.closeConn] ∧
        ∀ e ∈ pre, brokerEvent e = false) :=
  ⟨⟨by decide, by decide⟩,
    C9_announcer_contract argsEx worldEx metaEx (by decide) (by decide)⟩

/-- Witness for C10: the path `a/b/` and a verbatim explicit flag. -/
theorem C10_trailing_slash_and_verbatim_flag_witness :
    ("a/b/" = "a/b" ++ "/") ∧ deriveBucket "" "a/b/" = "" ∧
    ("MyBucket" ≠ "") ∧ deriveBucket "MyBucket" "some/dir" = "MyBucket" :=
  ⟨by decide,
    (C10_trailing_slash_and_verbatim_flag "a/b/" "a/b" "MyBucket").1 (by decide),
    by decide,
    (C10_trailing_slash_and_verbatim_flag "a/b/" "a/b" "MyBucket").2 (by decide) "some/dir"⟩
